import Mathlib

/-!
Verification of the IR-inference engine of the airpg package
(`airpg/ir_operations.py` and the orientation check in
`airpg/scripts/airpg_analyze.py`), via a shallow embedding in Lean.

Conventions of the embedding:
* Python integers are `Int`; record lengths are `Nat`.
* A Biopython `SeqFeature` is a `SeqFeature` structure below: type string,
  half-open location with optional strand, and an association list of
  qualifiers (each key mapping to a list of string values).
* Python code that raises is embedded as `Option`/`Except`: `none` /
  `.error _` marks the raise.
* A "note" qualifier key that is present but carries an empty value list
  never occurs in records produced by the GenBank parser (the Python code
  would raise `IndexError` on `qualifiers["note"][0]`); the embedding
  treats such a key as absent.
* Biopython's `SeqFeature.__bool__` always returns `True` (a documented
  backwards-compatibility choice), so `if feature:` in the Python source
  is a plain `None` test and is embedded as a `match` on `Option`.
-/

/-- Mirror of Biopython's `FeatureLocation`: half-open `[start, end)`
coordinates plus optional strand. -/
structure FeatureLocation where
  start : Int
  end_ : Int
  strand : Option Int
deriving Repr, DecidableEq

/-- Mirror of Biopython's `SeqFeature` as used by `ir_operations.py`. -/
structure SeqFeature where
  type : String
  location : FeatureLocation
  qualifiers : List (String × List String)
deriving Repr, DecidableEq

/-- Biopython `len(feature)`: length of the feature's location. -/
def SeqFeature.length (f : SeqFeature) : Int :=
  f.location.end_ - f.location.start

/-- Mirror of a Biopython `SeqRecord` as consumed by the engine: total
sequence length and the feature list. -/
structure SeqRecord where
  seq_len : Nat
  features : List SeqFeature
deriving Repr, DecidableEq

/-- Python dict-key membership `key in feature.qualifiers`. -/
def hasKey (f : SeqFeature) (k : String) : Bool :=
  f.qualifiers.any (fun q => q.1 == k)

/-- First value of qualifier `k`, as in `feature.qualifiers[k][0]`: `none` when the
key is absent (or, see the header comment, when its value list is empty). -/
def getQual1 (f : SeqFeature) (k : String) : Option String :=
  match f.qualifiers.find? (fun q => q.1 == k) with
  | some (_, v :: _) => some v
  | _ => none

/-- The note value `feature.qualifiers["note"][0]` as an `Option`. -/
def getNote (f : SeqFeature) : Option String :=
  getQual1 f "note"

/-- Python's `str.lower()` (the identifiers involved are all ASCII). -/
def lowerStr (s : String) : String :=
  String.mk (s.data.map Char.toLower)

/-- Python substring containment `needle in hay` on character lists. -/
def inChars (needle : List Char) : List Char → Bool
  | [] => needle.isEmpty
  | c :: t => needle.isPrefixOf (c :: t) || inChars needle t

/-- Python substring containment `needle in hay` on strings. -/
def inStr (needle hay : String) : Bool :=
  inChars needle.data hay.data

/-- Python `any(identifier in s for identifier in ids)`. -/
def anyIn (ids : List String) (s : String) : Bool :=
  ids.any (fun id => inStr id s)

/-! Identifier sets of `identify_junction` (ir_operations.py lines 105-108). -/

def jlbHard : List String := ["jlb", "lsc-irb", "irb-lsc"]
def jlbSoft : List String := ["lsc-ir", "ir-lsc"]
def jsbHard : List String := ["jsb", "ssc-irb", "irb-ssc"]
def jsbSoft : List String := ["ssc-ir", "ir-ssc"]
def jsaHard : List String := ["jsa", "ssc-ira", "ira-ssc"]
def jsaSoft : List String := ["ssc-ir", "ir-ssc"]
def jlaHard : List String := ["jla", "ira-lsc", "lsc-ira"]
def jlaSoft : List String := ["lsc-ir", "ir-lsc"]

/-- The `possible_junctions` list as accumulated by `identify_junction` when
no hard identifier matched: soft candidates appended in role scan order
JLB (0), JSB (1), JSA (2), JLA (3). -/
def softCandidates (nl : String) : List Int :=
  (if anyIn jlbSoft nl then [0] else [])
    ++ (if anyIn jsbSoft nl then [1] else [])
    ++ (if anyIn jsaSoft nl then [2] else [])
    ++ (if anyIn jlaSoft nl then [3] else [])

/-- Embedding of `IROperations.identify_junction` (ir_operations.py lines 83-159).
Returns `none` where the Python code raises (`KeyError` on a missing
"note" qualifier of a short feature).  The sequential hard/soft scan of
the source short-circuits on the first hard match; in the branch where no
hard identifier matched, `possible_junctions` equals `softCandidates` of
the lowered note (the `elif` guards of the source are all true there). -/
def identify_junction (feature : SeqFeature) (rec_len : Int) : Option Int :=
  if feature.length < 3 then
    match getNote feature with
    | none => none
    | some note0 =>
      let nl := lowerStr note0
      if anyIn jlbHard nl then some 0
      else if anyIn jsbHard nl then some 1
      else if anyIn jsaHard nl then some 2
      else if anyIn jlaHard nl then some 3
      else
        let p := softCandidates nl
        if p.length = 1 then some (p.headD (-1))
        else if 1 < p.length then
          if 3 ∈ p then
            if rec_len - 10 ≤ feature.location.start ∧ feature.location.start < rec_len then
              some 3
            else if p.length = 2 then some (p.headD (-1))
            else some 4
          else some 4
        else some (-1)
  else some (-1)

/-! Shared identifier sets of the IR matchers
(ir_operations.py lines 238-240, 291-293, 340-341). -/

def ira_identifiers : List String := ["ira", "inverted repeat a"]
def irb_identifiers : List String := ["irb", "inverted repeat b"]
def ssc_identifiers : List String := ["ssc", "small single copy"]
def lsc_identifiers : List String := ["lsc", "large single copy"]
def blacklist : List String := ["jlb", "jsb", "jsa", "jla", "junction"]

/-- State of `adjust_feature_location` (ir_operations.py lines 510-523).
`if feature:` is a `None` test (`SeqFeature.__bool__` is constantly true);
when start and end coincide the location is rewritten to start one base
earlier, keeping the strand. -/
def adjust_feature_location : Option SeqFeature → Option SeqFeature
  | none => none
  | some f =>
    if f.location.start = f.location.end_ then
      some { f with location := ⟨f.location.start - 1, f.location.end_, f.location.strand⟩ }
    else some f

/-- Loop body of the junction-collecting scan of `infer_irs_from_junctions`
(ir_operations.py lines 177-195): the state is `(jlb, jsb, jsa, jla)` and a
classified feature overwrites the slot of its junction type. -/
def junction_scan (rec_len : Int)
    (st : Option SeqFeature × Option SeqFeature × Option SeqFeature × Option SeqFeature)
    (f : SeqFeature) :
    Option SeqFeature × Option SeqFeature × Option SeqFeature × Option SeqFeature :=
  match identify_junction f rec_len with
  | some 0 => (some f, st.2.1, st.2.2.1, st.2.2.2)
  | some 1 => (st.1, some f, st.2.2.1, st.2.2.2)
  | some 2 => (st.1, st.2.1, some f, st.2.2.2)
  | some 3 => (st.1, st.2.1, st.2.2.1, some f)
  | _ => st

/-- Embedding of `IROperations.infer_irs_from_junctions` (ir_operations.py lines 161-224).
The four junction features are location-adjusted in place before the IR
features are assembled from adjacent junction pairs. -/
def infer_irs_from_junctions (rec_len : Int) (all_misc_features : List SeqFeature) :
    Option SeqFeature × Option SeqFeature :=
  let js := (all_misc_features.filter (fun f => (getNote f).isSome)).foldl
    (junction_scan rec_len) (none, none, none, none)
  let jlb := adjust_feature_location js.1
  let jsb := adjust_feature_location js.2.1
  let jsa := adjust_feature_location js.2.2.1
  let jla := adjust_feature_location js.2.2.2
  let IRb : Option SeqFeature :=
    match jlb, jsb with
    | some l, some s =>
      if l.location.start < s.location.start then
        some ⟨"", ⟨l.location.end_ - 1, s.location.start + 1, some 1⟩, []⟩
      else
        some ⟨"", ⟨s.location.end_ - 1, l.location.start + 1, some 1⟩, []⟩
    | _, _ => none
  let IRa : Option SeqFeature :=
    match jsa with
    | none => none
    | some a =>
      match jla with
      | some la =>
        if a.location.start < la.location.start then
          some ⟨"", ⟨a.location.end_ - 1, la.location.start + 1, some 1⟩, []⟩
        else
          some ⟨"", ⟨la.location.end_ - 1, a.location.start + 1, some 1⟩, []⟩
      | none =>
        match jsb with
        | some sb =>
          if sb.location.start < a.location.start then
            some ⟨"", ⟨a.location.end_ - 1, rec_len, some 1⟩, []⟩
          else
            some ⟨"", ⟨0, a.location.start + 1, some 1⟩, []⟩
        | none => some ⟨"", ⟨a.location.end_ - 1, rec_len, some 1⟩, []⟩
  (IRa, IRb)

/-- Loop body of the LSC/SSC scan of `infer_irs_from_single_copy_regions`
(ir_operations.py lines 242-253); the state is `(ssc, lsc)` and later
matches overwrite earlier ones. -/
def single_copy_scan (st : Option SeqFeature × Option SeqFeature) (f : SeqFeature) :
    Option SeqFeature × Option SeqFeature :=
  match getNote f with
  | none => st
  | some note0 =>
    let nl := lowerStr note0
    let st1 := if anyIn ssc_identifiers nl && !anyIn blacklist nl then (some f, st.2) else st
    if anyIn lsc_identifiers nl && !anyIn blacklist nl then (st1.1, some f) else st1

/-- Embedding of `IROperations.infer_irs_from_single_copy_regions` (ir_operations.py
lines 226-281).  `if lsc and ssc:` is a `None` test on both.  In the
`lsc.start < ssc.start` branch an `ira_end` of 0 wraps to `rec_len`; in the
other branch the analogous `irb_end` wrap value is computed by the source
but not used in the constructed features. -/
def infer_irs_from_single_copy_regions (rec_len : Int) (all_mf_no_pseudo : List SeqFeature)
    (IRa IRb : Option SeqFeature) : Option SeqFeature × Option SeqFeature :=
  let sl := all_mf_no_pseudo.foldl single_copy_scan (none, none)
  match sl.2, sl.1 with
  | some lsc, some ssc =>
    if lsc.location.start < ssc.location.start then
      let ira_start := ssc.location.end_ - 1
      let ira_end := lsc.location.start
      let irb_start := lsc.location.end_ - 1
      let irb_end := ssc.location.start
      let ira_end := if ira_end = 0 then rec_len else ira_end
      let IRa' := if IRa.isNone then
          some (⟨"misc_feature", ⟨ira_start, ira_end, some 1⟩, []⟩ : SeqFeature)
        else IRa
      let IRb' := if IRb.isNone then
          some (⟨"misc_feature", ⟨irb_start, irb_end, some 1⟩, []⟩ : SeqFeature)
        else IRb
      (IRa', IRb')
    else
      let IRa' := if IRa.isNone then
          some (⟨"misc_feature", ⟨lsc.location.end_ - 1, ssc.location.start, some 1⟩, []⟩ : SeqFeature)
        else IRa
      let IRb' := if IRb.isNone then
          some (⟨"misc_feature", ⟨ssc.location.end_ - 1, lsc.location.start, some 1⟩, []⟩ : SeqFeature)
        else IRb
      (IRa', IRb')
  | _, _ => (IRa, IRb)

/-- Loop body of STEP 1 of `identify_irs_in_misc_features` (ir_operations.py
lines 295-311): hard IRa/IRb identifiers, blacklist-filtered, with a
100 bp length floor; each slot is only filled while it is `None`. -/
def misc_hard_scan (st : Option SeqFeature × Option SeqFeature) (f : SeqFeature) :
    Option SeqFeature × Option SeqFeature :=
  match getNote f with
  | none => st
  | some note0 =>
    let nl := lowerStr note0
    let ira' := if st.1.isNone && anyIn ira_identifiers nl && !anyIn blacklist nl
        && decide (100 < f.length) then some f else st.1
    let irb' := if st.2.isNone && anyIn irb_identifiers nl && !anyIn blacklist nl
        && decide (100 < f.length) then some f else st.2
    (ira', irb')

/-- Loop body of STEP 2 of `identify_irs_in_misc_features` (ir_operations.py
lines 314-328): a general IR identifier ("inverted"+"repeat" lowered, or a
case-sensitive "IR") fills IRb first, then IRa. -/
def misc_soft_scan (st : Option SeqFeature × Option SeqFeature) (f : SeqFeature) :
    Option SeqFeature × Option SeqFeature :=
  match getNote f with
  | none => st
  | some note0 =>
    let nl := lowerStr note0
    if ((inStr "inverted" nl && inStr "repeat" nl) || inStr "IR" note0)
        && !anyIn blacklist nl then
      if 100 < f.length then
        if st.2.isNone then (st.1, some f)
        else if st.1.isNone then (some f, st.2)
        else st
      else st
    else st

/-- Embedding of `IROperations.identify_irs_in_misc_features` (ir_operations.py
lines 283-329). -/
def identify_irs_in_misc_features (all_mf_no_pseudo : List SeqFeature)
    (IRa IRb : Option SeqFeature) : Option SeqFeature × Option SeqFeature :=
  let s1 := all_mf_no_pseudo.foldl misc_hard_scan (IRa, IRb)
  if s1.1.isNone || s1.2.isNone then all_mf_no_pseudo.foldl misc_soft_scan s1
  else s1

/-- Loop body of the first scan of `identify_irs_in_repeat_features`
(ir_operations.py lines 345-385), over repeat features carrying a
`rpt_type` qualifier: only `rpt_type=inverted` features longer than
`min_IR_len` are considered; an explicit IRa/IRb note wins, otherwise the
ordinal fallback fills IRb first, then IRa. -/
def rpt_typed_scan (min_IR_len : Int) (st : Option SeqFeature × Option SeqFeature)
    (f : SeqFeature) : Option SeqFeature × Option SeqFeature :=
  match getQual1 f "rpt_type" with
  | none => st
  | some rt =>
    if lowerStr rt == "inverted" then
      if min_IR_len < f.length then
        match getNote f with
        | some note0 =>
          let nl := lowerStr note0
          if anyIn ira_identifiers nl then (some f, st.2)
          else if anyIn irb_identifiers nl then (st.1, some f)
          else if st.2.isNone then (st.1, some f)
          else if st.1.isNone then (some f, st.2)
          else st
        | none =>
          if st.2.isNone then (st.1, some f)
          else if st.1.isNone then (some f, st.2)
          else st
      else st
    else st

/-- Loop body of the second scan of `identify_irs_in_repeat_features`
(ir_operations.py lines 390-415), over repeat features lacking a
`rpt_type` qualifier: no length filter; explicit IRa/IRb notes assign
directly, a general IR identifier fills IRb first, then IRa. -/
def rpt_untyped_scan (st : Option SeqFeature × Option SeqFeature) (f : SeqFeature) :
    Option SeqFeature × Option SeqFeature :=
  match getNote f with
  | none => st
  | some note0 =>
    let nl := lowerStr note0
    if anyIn ira_identifiers nl then (some f, st.2)
    else if anyIn irb_identifiers nl then (st.1, some f)
    else if (inStr "inverted" nl && inStr "repeat" nl) || inStr "IR" note0 then
      if st.2.isNone then (st.1, some f)
      else if st.1.isNone then (some f, st.2)
      else st
    else st

/-- Embedding of `IROperations.identify_irs_in_repeat_features` (ir_operations.py
lines 331-417). -/
def identify_irs_in_repeat_features (all_repeat_features : List SeqFeature)
    (IRa IRb : Option SeqFeature) (min_IR_len : Int) :
    Option SeqFeature × Option SeqFeature :=
  let s1 := (all_repeat_features.filter (fun f => hasKey f "rpt_type")).foldl
    (rpt_typed_scan min_IR_len) (IRa, IRb)
  if s1.1.isNone || s1.2.isNone then
    (all_repeat_features.filter (fun f => !hasKey f "rpt_type")).foldl rpt_untyped_scan s1
  else s1

/-- Python slice index normalization for `seq[a:b]` on a sequence of
length `L` (negative indices count from the end, both ends clamped). -/
def pyIndex (L : Nat) (i : Int) : Nat :=
  if i < 0 then ((L : Int) + i).toNat else min i.toNat L

/-- Biopython `len(feature.extract(rec).seq)`: the length of the slice
`rec.seq[start:end]` (a `-1` strand only reverse-complements, leaving the
length unchanged). -/
def extractLen (L : Nat) (f : SeqFeature) : Nat :=
  pyIndex L f.location.end_ - pyIndex L f.location.start

/-- The four distinguishable terminal failures of
`identify_inverted_repeats`, one per `raise` site (ir_operations.py
lines 441, 452, 489, 501). -/
inductive IRError where
  /-- Message "Record does not contain any features which the IR are typically
  marked with (i.e., feature `repeat_region`, `misc_feature`)." -/
  | noIRFeatures
  /-- Message "Record does not contain any qualifiers for feature `misc_feature`
  which the IRs are typically named with (i.e., qualifier `note`)." -/
  | noNoteQualifiers
  /-- Message "Record does not contain any features which the single-copy regions
  are typically marked with (i.e., feature `misc_feature`)." -/
  | noSingleCopyFeatures
  /-- Message "Record does not contain the information necessary to infer the
  position of either the IR or the single-copy regions." -/
  | insufficientInfo
deriving Repr, DecidableEq

instance {ε α : Type} [DecidableEq ε] [DecidableEq α] : DecidableEq (Except ε α) := fun x y =>
  match x, y with
  | .error e, .error e' =>
    if h : e = e' then isTrue (by rw [h]) else isFalse (by intro hh; cases hh; exact h rfl)
  | .error _, .ok _ => isFalse (by intro h; cases h)
  | .ok _, .error _ => isFalse (by intro h; cases h)
  | .ok a, .ok b =>
    if h : a = b then isTrue (by rw [h]) else isFalse (by intro hh; cases hh; exact h rfl)

/-- The inline sanity check of `identify_inverted_repeats` (applied at
ir_operations.py lines 460-466, 474-480 and 492-498): an assigned IR whose
extracted sequence is shorter than `min_IR_len` is discarded. -/
def discard_short (L : Nat) (min_IR_len : Int) : Option SeqFeature → Option SeqFeature
  | none => none
  | some f => if (extractLen L f : Int) < min_IR_len then none else some f

/-- STEPS 3-4 of `identify_inverted_repeats` (ir_operations.py
lines 454-480): the misc-feature scan filling only open slots, a sanity
check, the junction inference (whose result replaces both slots), and a
second sanity check. -/
def pipeline_mid (L : Nat) (m : Int) (all_misc_features all_mf_no_pseudo : List SeqFeature)
    (p1 : Option SeqFeature × Option SeqFeature) :
    Option SeqFeature × Option SeqFeature :=
  let p2 := if p1.1.isNone ∨ p1.2.isNone then
      identify_irs_in_misc_features all_mf_no_pseudo p1.1 p1.2
    else p1
  let p3 := (discard_short L m p2.1, discard_short L m p2.2)
  let p4 := if p3.1.isNone ∨ p3.2.isNone then
      infer_irs_from_junctions (L : Int) all_misc_features
    else p3
  (discard_short L m p4.1, discard_short L m p4.2)

/-- STEP 5 and the final checks of `identify_inverted_repeats`
(ir_operations.py lines 482-503): single-copy complement inference, the
last sanity check, and the final both-empty failure. -/
def pipeline_final (L : Nat) (m : Int) (all_mf_no_pseudo : List SeqFeature)
    (p5 : Option SeqFeature × Option SeqFeature) :
    Except IRError (Option SeqFeature × Option SeqFeature) :=
  let p6 := if p5.1.isNone ∨ p5.2.isNone then
      infer_irs_from_single_copy_regions (L : Int) all_mf_no_pseudo p5.1 p5.2
    else p5
  let p7 := (discard_short L m p6.1, discard_short L m p6.2)
  if p7.1.isNone ∧ p7.2.isNone then .error .insufficientInfo
  else .ok p7

/-- Embedding of `IROperations.identify_inverted_repeats` (ir_operations.py
lines 419-503).  Stage order: repeat features, note-qualifier precondition
(checked only when both slots are still empty), misc features, sanity
check, junctions (whose result replaces both slots), sanity check,
single-copy complement, sanity check, final emptiness check.  The in-place
location adjustment performed on point junctions inside
`infer_irs_from_junctions` is modeled locally to that call. -/
def identify_inverted_repeats (rec : SeqRecord) (min_IR_len : Int) :
    Except IRError (Option SeqFeature × Option SeqFeature) :=
  let all_repeat_features := rec.features.filter (fun f => f.type == "repeat_region")
  let all_misc_features := rec.features.filter (fun f => f.type == "misc_feature")
  let all_mf_no_pseudo := all_misc_features.filter (fun f => !hasKey f "pseudo")
  if all_repeat_features.length = 0 ∧ all_misc_features.length = 0 then
    .error .noIRFeatures
  else
    let p1 := identify_irs_in_repeat_features all_repeat_features none none min_IR_len
    if p1.1.isNone ∧ p1.2.isNone ∧ ¬ all_misc_features.any (fun f => hasKey f "note") then
      .error .noNoteQualifiers
    else
      let p5 := pipeline_mid rec.seq_len min_IR_len all_misc_features all_mf_no_pseudo p1
      if all_mf_no_pseudo.length = 0 ∧ p5.1.isNone ∧ p5.2.isNone then
        .error .noSingleCopyFeatures
      else pipeline_final rec.seq_len min_IR_len all_mf_no_pseudo p5

/-! Orientation reconciliation (airpg_analyze.py lines 153-160).  The
similarity metric there is `fuzz.ratio` from the external fuzzywuzzy /
python-Levenshtein libraries, which are not part of this repository. -/

/-- Nucleotide complement, as applied by Biopython's
`Seq.reverse_complement` on the DNA alphabet (characters outside the four
bases are left unchanged). -/
def complementBase (c : Char) : Char :=
  if c = 'A' then 'T'
  else if c = 'T' then 'A'
  else if c = 'C' then 'G'
  else if c = 'G' then 'C'
  else c

/-- Biopython's `Seq.reverse_complement`: complement of the reverse. -/
def reverse_complement (s : List Char) : List Char :=
  s.reverse.map complementBase

/-- Length of a longest common subsequence of two character lists. -/
def lcs : List Char → List Char → Nat
  | [], _ => 0
  | _ :: _, [] => 0
  | a :: x, b :: y =>
    if a = b then lcs x y + 1
    else max (lcs (a :: x) y) (lcs x (b :: y))
termination_by x y => x.length + y.length

/-- Modelled from the spec: the external `fuzz.ratio` similarity
(fuzzywuzzy backed by python-Levenshtein, outside this repository) is "a
normalized similarity score" in the 0-100 range; with python-Levenshtein it
equals `100 * (lensum - dist) / lensum` where `dist` is the edit distance
with substitution cost 2, i.e. `100 * 2 * LCS / (len1 + len2)` (embedded
here with floor division). -/
def fuzz_ratio (s t : List Char) : Nat :=
  100 * (2 * lcs s t) / (s.length + t.length)

/-- The reverse-complement decision of `airpg_analyze.main` (airpg_analyze.py
lines 153-160): `rev_comp` is set exactly when the similarity of IRa to the
reverse complement of IRb strictly exceeds the similarity of IRa to IRb as
given. -/
def reconcile_rev_comp (ira irb : List Char) : Bool :=
  fuzz_ratio ira irb < fuzz_ratio ira (reverse_complement irb)

/-! ## Helper lemmas -/

lemma adjust_some (f : SeqFeature) :
    adjust_feature_location (some f) =
      if f.location.start = f.location.end_ then
        some { f with location := ⟨f.location.start - 1, f.location.end_, f.location.strand⟩ }
      else some f := rfl

lemma getQual1_eq_none_of_hasKey_false (f : SeqFeature) (k : String)
    (h : hasKey f k = false) : getQual1 f k = none := by
  unfold hasKey at h
  unfold getQual1
  rw [List.find?_eq_none.mpr (List.any_eq_false.mp h)]

lemma discard_short_spec (L : Nat) (m : Int) (x : Option SeqFeature) (f : SeqFeature)
    (h : discard_short L m x = some f) : m ≤ (extractLen L f : Int) := by
  cases x with
  | none => exact Option.noConfusion h
  | some g =>
    simp only [discard_short] at h
    by_cases hlt : (extractLen L g : Int) < m
    · rw [if_pos hlt] at h; exact Option.noConfusion h
    · rw [if_neg hlt] at h; injection h with h2; subst h2; omega

lemma softCandidates_subset (nl : String) :
    ∀ x ∈ softCandidates nl, x ∈ ([0, 1, 2, 3] : List Int) := by
  intro x hx
  unfold softCandidates at hx
  simp only [List.mem_append] at hx
  rcases hx with ((h | h) | h) | h <;>
    · split at h <;> simp_all

lemma headD_mem_of_ne_nil (l : List Int) (h : l ≠ []) : l.headD (-1) ∈ l := by
  cases l with
  | nil => exact absurd rfl h
  | cons a t => simp

/-! ## C7 -/

/-- C7: for every feature whose length is at least 3, `identify_junction`
returns the Unclassifiable value `-1`, regardless of the note text and of
the record length. -/
theorem C7_long_feature_unclassifiable (f : SeqFeature) (rec_len : Int)
    (h : 3 ≤ f.length) : identify_junction f rec_len = some (-1) := by
  unfold identify_junction
  rw [if_neg (by omega)]

/-- Witness for C7 at a length-5 feature carrying a junction note. -/
theorem C7_long_feature_unclassifiable_witness :
    (3 : Int) ≤ SeqFeature.length ⟨"misc_feature", ⟨10, 15, some 1⟩, [("note", ["jlb"])]⟩ ∧
    identify_junction ⟨"misc_feature", ⟨10, 15, some 1⟩, [("note", ["jlb"])]⟩ 100 = some (-1) :=
  ⟨by decide, C7_long_feature_unclassifiable _ 100 (by decide)⟩

/-! ## C8 -/

/-- C8: `adjust_feature_location` is idempotent; a feature with
`start = end` is rewritten to start one base before its end with the
strand preserved, and a feature with `start ≠ end` is returned
unchanged. -/
theorem C8_adjust_feature_location_spec :
    (∀ f : Option SeqFeature,
      adjust_feature_location (adjust_feature_location f) = adjust_feature_location f) ∧
    (∀ g : SeqFeature, g.location.start = g.location.end_ →
      adjust_feature_location (some g) =
        some { g with location := ⟨g.location.end_ - 1, g.location.end_, g.location.strand⟩ }) ∧
    (∀ g : SeqFeature, g.location.start ≠ g.location.end_ →
      adjust_feature_location (some g) = some g) := by
  refine ⟨?_, ?_, ?_⟩
  · intro f
    cases f with
    | none => rfl
    | some g =>
      by_cases h : g.location.start = g.location.end_
      · rw [adjust_some, if_pos h, adjust_some]
        have h2 : ¬ (g.location.start - 1 = g.location.end_) := by omega
        rw [if_neg h2]
      · rw [adjust_some, if_neg h, adjust_some, if_neg h]
  · intro g h
    rw [adjust_some, if_pos h, h]
  · intro g h
    rw [adjust_some, if_neg h]

/-- Witness for C8 at a point feature `[7, 7)`: the rewrite yields `[6, 7)`
with the strand kept, and a second application is a no-op. -/
theorem C8_adjust_feature_location_witness :
    adjust_feature_location (some ⟨"misc_feature", ⟨7, 7, some 1⟩, []⟩) =
      some ⟨"misc_feature", ⟨6, 7, some 1⟩, []⟩ :=
  C8_adjust_feature_location_spec.2.1 ⟨"misc_feature", ⟨7, 7, some 1⟩, []⟩ rfl

/-! ## C6 -/

lemma softCandidates_headD_mem_big (nl : String) (h : softCandidates nl ≠ []) :
    (softCandidates nl).headD (-1) ∈ ([-1, 0, 1, 2, 3, 4] : List Int) := by
  have hmem := softCandidates_subset nl _ (headD_mem_of_ne_nil _ h)
  have hmem' : (softCandidates nl).headD (-1) = 0 ∨ (softCandidates nl).headD (-1) = 1 ∨
      (softCandidates nl).headD (-1) = 2 ∨ (softCandidates nl).headD (-1) = 3 := by
    simpa using hmem
  rcases hmem' with h' | h' | h' | h' <;> rw [h'] <;> decide

/-- Counterexample to C6: `identify_junction` does raise on a feature of
length < 3 that lacks a "note" qualifier (the unguarded
`feature.qualifiers["note"][0]` access raises `KeyError`, embedded as
`none`), so it is not exception-free for every qualifier mapping. -/
theorem C6_counterexample :
    identify_junction ⟨"misc_feature", ⟨5, 6, none⟩, []⟩ 100 = none ∧
    SeqFeature.length ⟨"misc_feature", ⟨5, 6, none⟩, []⟩ < 3 ∧
    getNote ⟨"misc_feature", ⟨5, 6, none⟩, []⟩ = none := by decide

/-- C6 (amended): `identify_junction` never raises on any feature that
carries a "note" qualifier value or whose length is at least 3; it then
returns one of the classification values -1 (Unclassifiable), 0 (JLB),
1 (JSB), 2 (JSA), 3 (JLA) or 4 (Ambiguous), with Ambiguous and
Unclassifiable being ordinary return values rather than errors. -/
theorem C6_junction_total_on_noted_features (f : SeqFeature) (rec_len : Int)
    (h : (getNote f).isSome ∨ 3 ≤ f.length) :
    ∃ j, identify_junction f rec_len = some j ∧ j ∈ ([-1, 0, 1, 2, 3, 4] : List Int) := by
  by_cases hl : f.length < 3
  · have hnote : (getNote f).isSome := by
      rcases h with h | h
      · exact h
      · exact absurd h (by omega)
    obtain ⟨s, hs⟩ := Option.isSome_iff_exists.mp hnote
    unfold identify_junction
    rw [if_pos hl, hs]
    simp only []
    split_ifs with h1 h2 h3 h4 h5 h6 h7 h8 h9 <;>
      first
        | exact ⟨0, rfl, by decide⟩
        | exact ⟨1, rfl, by decide⟩
        | exact ⟨2, rfl, by decide⟩
        | exact ⟨3, rfl, by decide⟩
        | exact ⟨4, rfl, by decide⟩
        | exact ⟨-1, rfl, by decide⟩
        | exact ⟨_, rfl, softCandidates_headD_mem_big _ (List.length_pos.mp (by omega))⟩
  · refine ⟨-1, ?_, by decide⟩
    unfold identify_junction
    rw [if_neg hl]

/-- Witness for (amended) C6 at a short feature whose note is present but
matches nothing: the Unclassifiable value is an ordinary return. -/
theorem C6_junction_total_on_noted_features_witness :
    ∃ j, identify_junction ⟨"misc_feature", ⟨5, 6, none⟩, [("note", ["hello"])]⟩ 100 = some j ∧
      j ∈ ([-1, 0, 1, 2, 3, 4] : List Int) :=
  C6_junction_total_on_noted_features ⟨"misc_feature", ⟨5, 6, none⟩, [("note", ["hello"])]⟩ 100
    (Or.inl (by decide))

/-! ## C2 -/

/-- Counterexample to C2: the note "ssc-ir" of a short feature matches no
hard identifier and collects exactly the two soft candidates
[JSB, JSA] = [1, 2]; the JLA-near-record-end exception does not apply, yet
`identify_junction` returns Ambiguous (4), not the first collected
candidate JSB (1) that the claim's fallback clause would require. -/
theorem C2_counterexample :
    identify_junction ⟨"misc_feature", ⟨0, 1, some 1⟩, [("note", ["ssc-ir"])]⟩ 1000 = some 4 ∧
    softCandidates (lowerStr "ssc-ir") = [1, 2] ∧
    anyIn jlbHard (lowerStr "ssc-ir") = false ∧
    anyIn jsbHard (lowerStr "ssc-ir") = false ∧
    anyIn jsaHard (lowerStr "ssc-ir") = false ∧
    anyIn jlaHard (lowerStr "ssc-ir") = false ∧
    (some (4 : Int)) ≠ some 1 := by decide

/-- C2 (amended): for a feature of length < 3 whose note matches no hard
identifier and collects two or more soft candidates, `identify_junction`
returns Ambiguous, except inside the JLA case: when JLA is among the
candidates and the start lies within the last 10 bases it returns JLA, and
when JLA is among the candidates, the start is not within the last 10
bases and exactly two candidates were collected it returns the first
candidate in scan order JLB, JSB, JSA, JLA.  When JLA is not among the
candidates the result is Ambiguous regardless of the candidate count. -/
theorem C2_ambiguous_soft_candidates (f : SeqFeature) (rec_len : Int) (s : String)
    (hlen : f.length < 3) (hs : getNote f = some s)
    (h0 : anyIn jlbHard (lowerStr s) = false) (h1 : anyIn jsbHard (lowerStr s) = false)
    (h2 : anyIn jsaHard (lowerStr s) = false) (h3 : anyIn jlaHard (lowerStr s) = false)
    (hp : 2 ≤ (softCandidates (lowerStr s)).length) :
    ((3 ∈ softCandidates (lowerStr s) ∧
        (rec_len - 10 ≤ f.location.start ∧ f.location.start < rec_len)) →
      identify_junction f rec_len = some 3) ∧
    ((3 ∈ softCandidates (lowerStr s) ∧
        ¬ (rec_len - 10 ≤ f.location.start ∧ f.location.start < rec_len) ∧
        (softCandidates (lowerStr s)).length = 2) →
      identify_junction f rec_len = some ((softCandidates (lowerStr s)).headD (-1))) ∧
    ((3 ∉ softCandidates (lowerStr s) ∨
        (¬ (rec_len - 10 ≤ f.location.start ∧ f.location.start < rec_len) ∧
          (softCandidates (lowerStr s)).length ≠ 2)) →
      identify_junction f rec_len = some 4) := by
  have h0' : ¬ (anyIn jlbHard (lowerStr s) = true) := by simp [h0]
  have h1' : ¬ (anyIn jsbHard (lowerStr s) = true) := by simp [h1]
  have h2' : ¬ (anyIn jsaHard (lowerStr s) = true) := by simp [h2]
  have h3' : ¬ (anyIn jlaHard (lowerStr s) = true) := by simp [h3]
  have h5' : ¬ ((softCandidates (lowerStr s)).length = 1) := by omega
  have h6' : 1 < (softCandidates (lowerStr s)).length := by omega
  have key : identify_junction f rec_len =
      (if 3 ∈ softCandidates (lowerStr s) then
        (if rec_len - 10 ≤ f.location.start ∧ f.location.start < rec_len then some 3
         else if (softCandidates (lowerStr s)).length = 2 then
           some ((softCandidates (lowerStr s)).headD (-1))
         else some 4)
       else some 4) := by
    unfold identify_junction
    rw [if_pos hlen, hs]
    simp only []
    rw [if_neg h0', if_neg h1', if_neg h2', if_neg h3', if_neg h5', if_pos h6']
  refine ⟨?_, ?_, ?_⟩
  · rintro ⟨hmem, hnear⟩
    rw [key, if_pos hmem, if_pos hnear]
  · rintro ⟨hmem, hnear, hlen2⟩
    rw [key, if_pos hmem, if_neg hnear, if_pos hlen2]
  · rintro (hmem | ⟨hnear, hlen2⟩)
    · rw [key, if_neg hmem]
    · by_cases hmem : 3 ∈ softCandidates (lowerStr s)
      · rw [key, if_pos hmem, if_neg hnear, if_neg hlen2]
      · rw [key, if_neg hmem]

/-- Witness for (amended) C2: a feature with note "lsc-ir, ssc-ir"
(all four soft candidates, no hard identifier) starting within the last
10 bases of a length-10000 record resolves to JLA. -/
theorem C2_ambiguous_soft_candidates_witness :
    identify_junction ⟨"misc_feature", ⟨9995, 9996, some 1⟩, [("note", ["lsc-ir, ssc-ir"])]⟩ 10000
      = some 3 :=
  (C2_ambiguous_soft_candidates ⟨"misc_feature", ⟨9995, 9996, some 1⟩, [("note", ["lsc-ir, ssc-ir"])]⟩
      10000 "lsc-ir, ssc-ir" (by decide) (by decide) (by decide) (by decide) (by decide)
      (by decide) (by decide)).1 ⟨by decide, by decide, by decide⟩

/-! ## C3 -/

/-- The LSC feature `[0, 100)` of the C3 scenario. -/
def lscC3 : SeqFeature := ⟨"misc_feature", ⟨0, 100, some 1⟩, [("note", ["lsc"])]⟩

/-- The SSC feature `[5000, 5100)` of the C3 scenario. -/
def sscC3 : SeqFeature := ⟨"misc_feature", ⟨5000, 5100, some 1⟩, [("note", ["ssc"])]⟩

/-- The IRa interval `[5099, 10000)` actually constructed in the C3 scenario. -/
def iraC3 : SeqFeature := ⟨"misc_feature", ⟨5099, 10000, some 1⟩, []⟩

/-- The IRb interval `[99, 5000)` actually constructed in the C3 scenario. -/
def irbC3 : SeqFeature := ⟨"misc_feature", ⟨99, 5000, some 1⟩, []⟩

/-- Counterexample to C3: with an LSC at `[0,100)` and an SSC at
`[5000,5100)` in a record of length 10000 and no pre-existing IRs,
`infer_irs_from_single_copy_regions` returns the intervals `[5099,10000)`
and `[99,5000)`; their lengths (4901 each) summed with the LSC and SSC
lengths give 10002, not the record length 10000. -/
theorem C3_counterexample :
    infer_irs_from_single_copy_regions 10000 [lscC3, sscC3] none none
      = (some iraC3, some irbC3) ∧
    ¬ (iraC3.length + irbC3.length + lscC3.length + sscC3.length = (10000 : Int)) := by
  decide

/-- C3 (amended): in the scenario above the two complement intervals sum
with the LSC and SSC lengths to the record length plus 2 — each inferred
IR starts one base before the adjacent single-copy boundary (the source
uses `end - 1`), overlapping each single-copy region by one base. -/
theorem C3_complement_arcs_sum :
    infer_irs_from_single_copy_regions 10000 [lscC3, sscC3] none none
      = (some iraC3, some irbC3) ∧
    iraC3.length + irbC3.length + lscC3.length + sscC3.length = (10000 : Int) + 2 := by
  decide

/-! ## C4 -/

/-- The C4 counterexample record: a `repeat_region` that fills only the
IRa slot, plus a `misc_feature` without any "note" qualifier. -/
def c4Repeat : SeqFeature :=
  ⟨"repeat_region", ⟨0, 2000, some 1⟩, [("rpt_type", ["inverted"]), ("note", ["ira"])]⟩

/-- A `misc_feature` carrying no "note" qualifier. -/
def c4Misc : SeqFeature := ⟨"misc_feature", ⟨3000, 3005, some 1⟩, []⟩

/-- The C4 counterexample record. -/
def c4Rec : SeqRecord := ⟨10000, [c4Repeat, c4Misc]⟩

/-- Counterexample to C4: after the repeat-feature stage one IR slot is
still open (only IRa was found) and no `misc_feature` carries a "note"
qualifier, yet the pipeline does not fail with the no-note-qualifiers
reason — it continues through the later stages (which clobber the partial
result) and terminates with the distinct final failure reason instead.
The no-note check of the source fires only when both slots are empty. -/
theorem C4_counterexample :
    identify_irs_in_repeat_features
        (c4Rec.features.filter (fun f => f.type == "repeat_region")) none none 1000
      = (some c4Repeat, none) ∧
    (∀ f ∈ c4Rec.features.filter (fun f => f.type == "misc_feature"),
      hasKey f "note" = false) ∧
    identify_inverted_repeats c4Rec 1000 = .error .insufficientInfo ∧
    IRError.insufficientInfo ≠ IRError.noNoteQualifiers := by
  refine ⟨by decide, by decide, by decide, by decide⟩

/-- C4 (amended): when after the repeat-feature matching stage BOTH IR
slots are still open and no `misc_feature` carries a "note" qualifier
(and the record passed the step-1 precondition of having at least one
`repeat_region` or `misc_feature`), `identify_inverted_repeats` fails
terminally with the distinguishable no-note-qualifiers reason. -/
theorem C4_no_note_failure (rec : SeqRecord) (min_IR_len : Int)
    (hfeat : ¬ ((rec.features.filter (fun f => f.type == "repeat_region")).length = 0 ∧
      (rec.features.filter (fun f => f.type == "misc_feature")).length = 0))
    (hrpt : identify_irs_in_repeat_features
        (rec.features.filter (fun f => f.type == "repeat_region")) none none min_IR_len
      = (none, none))
    (hnote : ∀ f ∈ rec.features.filter (fun f => f.type == "misc_feature"),
      hasKey f "note" = false) :
    identify_inverted_repeats rec min_IR_len = .error .noNoteQualifiers := by
  have hany : (rec.features.filter (fun f => f.type == "misc_feature")).any
      (fun f => hasKey f "note") = false :=
    List.any_eq_false.mpr (by intro x hx; simp [hnote x hx])
  unfold identify_inverted_repeats
  rw [if_neg hfeat, hrpt]
  rw [if_pos (by simp [hany])]

/-- Witness for (amended) C4 at a record holding a single note-free
`misc_feature` and no repeat features. -/
theorem C4_no_note_failure_witness :
    identify_inverted_repeats ⟨10000, [c4Misc]⟩ 1000 = .error .noNoteQualifiers :=
  C4_no_note_failure ⟨10000, [c4Misc]⟩ 1000 (by decide) (by decide) (by decide)

/-! ## C5 -/

lemma rpt_typed_scan_fallback (min_IR_len : Int) (f : SeqFeature) (rt : String)
    (hrt : getQual1 f "rpt_type" = some rt) (hinv : lowerStr rt = "inverted")
    (hlen : min_IR_len < f.length)
    (hnote : (∃ s, getNote f = some s ∧ anyIn ira_identifiers (lowerStr s) = false ∧
        anyIn irb_identifiers (lowerStr s) = false) ∨ hasKey f "note" = false)
    (st : Option SeqFeature × Option SeqFeature) :
    rpt_typed_scan min_IR_len st f =
      (if st.2.isNone then (st.1, some f)
       else if st.1.isNone then (some f, st.2) else st) := by
  unfold rpt_typed_scan
  rw [hrt]
  simp only []
  rw [if_pos (by simp [hinv]), if_pos hlen]
  rcases hnote with ⟨s, hns, hia, hib⟩ | hkey
  · rw [hns]
    simp only []
    rw [if_neg (by simp [hia]), if_neg (by simp [hib])]
  · rw [show getNote f = none from getQual1_eq_none_of_hasKey_false f "note" hkey]

/-- C5: in `identify_irs_in_repeat_features`, a repeat feature whose
`rpt_type` equals "inverted", whose length exceeds `min_IR_len` and whose
note contains neither an IRa nor an IRb identifier (or which carries no
note at all) is assigned by ordinal fallback to the first unassigned slot
in the order IRb then IRa: with IRb still unassigned it becomes IRb, and
with IRb taken but IRa unassigned it becomes IRa. -/
theorem C5_ordinal_fallback_fills_irb_first (f : SeqFeature) (min_IR_len : Int) (rt : String)
    (hkey : hasKey f "rpt_type" = true) (hrt : getQual1 f "rpt_type" = some rt)
    (hinv : lowerStr rt = "inverted") (hlen : min_IR_len < f.length)
    (hnote : (∃ s, getNote f = some s ∧ anyIn ira_identifiers (lowerStr s) = false ∧
        anyIn irb_identifiers (lowerStr s) = false) ∨ hasKey f "note" = false) :
    (∀ ira0, identify_irs_in_repeat_features [f] ira0 none min_IR_len = (ira0, some f)) ∧
    (∀ b, identify_irs_in_repeat_features [f] none (some b) min_IR_len = (some f, some b)) := by
  have hf1 : List.filter (fun g => hasKey g "rpt_type") [f] = [f] := by
    simp [List.filter, hkey]
  have hf2 : List.filter (fun g => !hasKey g "rpt_type") [f] = [] := by
    simp [List.filter, hkey]
  have hstep := rpt_typed_scan_fallback min_IR_len f rt hrt hinv hlen hnote
  constructor
  · intro ira0
    unfold identify_irs_in_repeat_features
    rw [hf1, hf2]
    simp only [List.foldl]
    rw [hstep (ira0, none)]
    cases ira0 <;> simp
  · intro b
    unfold identify_irs_in_repeat_features
    rw [hf1, hf2]
    simp only [List.foldl]
    rw [hstep (none, some b)]
    simp

/-- The C5 witness feature of the spec scenario: `rpt_type=inverted`,
length 15000, no identifying note. -/
def c5Feat : SeqFeature := ⟨"repeat_region", ⟨100, 15100, some 1⟩, [("rpt_type", ["inverted"])]⟩

/-- Witness for C5: the length-15000 `rpt_type=inverted` feature without a
note is assigned to the still-unassigned IRb slot. -/
theorem C5_ordinal_fallback_fills_irb_first_witness :
    identify_irs_in_repeat_features [c5Feat] none none 1000 = (none, some c5Feat) :=
  (C5_ordinal_fallback_fills_irb_first c5Feat 1000 "inverted" (by decide) (by decide)
    (by decide) (by decide) (Or.inr (by decide))).1 none

/-! ## C10 -/

/-- C10: the second scan of `identify_irs_in_repeat_features` — over repeat
features lacking an `rpt_type` qualifier — applies no minimum-length
filter: a feature whose note names IRa is assigned to IRa, one whose note
names IRb is assigned to IRb, and one carrying only a general
inverted-repeat identifier fills the open IRb slot, in every case with no
hypothesis whatsoever on the feature's length (in particular for features
shorter than `min_IR_len`); length filtering of these assignments happens
only through the pipeline's later sanity check. -/
theorem C10_untyped_scan_has_no_length_filter (f : SeqFeature) (min_IR_len : Int) (s : String)
    (hkey : hasKey f "rpt_type" = false) (hs : getNote f = some s) :
    (anyIn ira_identifiers (lowerStr s) = true →
      ∀ irb0, identify_irs_in_repeat_features [f] none irb0 min_IR_len = (some f, irb0)) ∧
    (anyIn ira_identifiers (lowerStr s) = false → anyIn irb_identifiers (lowerStr s) = true →
      ∀ ira0, identify_irs_in_repeat_features [f] ira0 none min_IR_len = (ira0, some f)) ∧
    (anyIn ira_identifiers (lowerStr s) = false → anyIn irb_identifiers (lowerStr s) = false →
      ((inStr "inverted" (lowerStr s) && inStr "repeat" (lowerStr s)) || inStr "IR" s) = true →
      ∀ ira0, identify_irs_in_repeat_features [f] ira0 none min_IR_len = (ira0, some f)) := by
  have hf1 : List.filter (fun g => hasKey g "rpt_type") [f] = [] := by
    simp [List.filter, hkey]
  have hf2 : List.filter (fun g => !hasKey g "rpt_type") [f] = [f] := by
    simp [List.filter, hkey]
  refine ⟨?_, ?_, ?_⟩
  · intro hia irb0
    unfold identify_irs_in_repeat_features
    rw [hf1, hf2]
    simp only [List.foldl]
    rw [if_pos (by simp)]
    unfold rpt_untyped_scan
    rw [hs]
    simp only []
    rw [if_pos (by simp [hia])]
  · intro hia hib ira0
    unfold identify_irs_in_repeat_features
    rw [hf1, hf2]
    simp only [List.foldl]
    rw [if_pos (by simp)]
    unfold rpt_untyped_scan
    rw [hs]
    simp only []
    rw [if_neg (by simp [hia]), if_pos (by simp [hib])]
  · intro hia hib hgen ira0
    unfold identify_irs_in_repeat_features
    rw [hf1, hf2]
    simp only [List.foldl]
    rw [if_pos (by simp)]
    unfold rpt_untyped_scan
    rw [hs]
    simp only []
    rw [if_neg (by simp [hia]), if_neg (by simp [hib]), if_pos (by simp [hgen]),
      if_pos (by simp)]

/-- The C10 witness feature: no `rpt_type`, note "ira", length 5. -/
def c10Feat : SeqFeature := ⟨"repeat_region", ⟨0, 5, some 1⟩, [("note", ["ira"])]⟩

/-- Witness for C10: a length-5 repeat feature (far below the default
`min_IR_len` of 1000) lacking `rpt_type` but noted "ira" is still assigned
to the IRa slot by the second scan. -/
theorem C10_untyped_scan_has_no_length_filter_witness :
    identify_irs_in_repeat_features [c10Feat] none none 1000 = (some c10Feat, none) ∧
    SeqFeature.length c10Feat < 1000 :=
  ⟨(C10_untyped_scan_has_no_length_filter c10Feat 1000 "ira" (by decide) (by decide)).1
      (by decide) none,
    by decide⟩

/-! ## C1 -/

lemma pipeline_final_ok_spec (L : Nat) (m : Int) (mfnp : List SeqFeature)
    (p : Option SeqFeature × Option SeqFeature) (oa ob : Option SeqFeature)
    (h : pipeline_final L m mfnp p = .ok (oa, ob)) :
    (∀ f, oa = some f → m ≤ (extractLen L f : Int)) ∧
    (∀ f, ob = some f → m ≤ (extractLen L f : Int)) := by
  simp only [pipeline_final] at h
  by_cases hq : p.1.isNone = true ∨ p.2.isNone = true
  · rw [if_pos hq] at h
    split at h
    · exact Except.noConfusion h
    · injection h with hpair
      have ha := congrArg Prod.fst hpair
      have hb := congrArg Prod.snd hpair
      simp only [] at ha hb
      exact ⟨fun f hf => discard_short_spec _ _ _ _ (ha.trans hf),
        fun f hf => discard_short_spec _ _ _ _ (hb.trans hf)⟩
  · rw [if_neg hq] at h
    split at h
    · exact Except.noConfusion h
    · injection h with hpair
      have ha := congrArg Prod.fst hpair
      have hb := congrArg Prod.snd hpair
      simp only [] at ha hb
      exact ⟨fun f hf => discard_short_spec _ _ _ _ (ha.trans hf),
        fun f hf => discard_short_spec _ _ _ _ (hb.trans hf)⟩

/-- C1: whenever `identify_inverted_repeats` returns (rather than failing),
every IR slot that is set in the returned pair holds a feature whose
extracted sequence length is at least `min_IR_len`: the final sanity check
discards any provisional IR shorter than the threshold (a length equal to
`min_IR_len` passes the strict `<` test and is kept), so no under-length IR
can be returned. -/
theorem C1_accepted_ir_length_ge_min (rec : SeqRecord) (min_IR_len : Int)
    (oa ob : Option SeqFeature)
    (h : identify_inverted_repeats rec min_IR_len = .ok (oa, ob)) :
    (∀ f, oa = some f → min_IR_len ≤ (extractLen rec.seq_len f : Int)) ∧
    (∀ f, ob = some f → min_IR_len ≤ (extractLen rec.seq_len f : Int)) := by
  simp only [identify_inverted_repeats] at h
  split at h
  · exact Except.noConfusion h
  · split at h
    · exact Except.noConfusion h
    · split at h
      · exact Except.noConfusion h
      · exact pipeline_final_ok_spec _ _ _ _ _ _ h

/-- The boundary IRa of the C1 witness record: extract length exactly 1000. -/
def c1IRa : SeqFeature := ⟨"repeat_region", ⟨0, 1000, some 1⟩, [("note", ["ira"])]⟩

/-- The IRb of the C1 witness record (length 1001). -/
def c1IRb : SeqFeature := ⟨"repeat_region", ⟨2000, 3001, some 1⟩, [("note", ["irb"])]⟩

/-- The C1 witness record. -/
def c1Rec : SeqRecord := ⟨10000, [c1IRa, c1IRb]⟩

/-- A 999-base IRb candidate, one below the default threshold. -/
def c1IRbShort : SeqFeature := ⟨"repeat_region", ⟨2000, 2999, some 1⟩, [("note", ["irb"])]⟩

/-- The C1 record whose IRb candidate is one base too short. -/
def c1RecShort : SeqRecord := ⟨10000, [c1IRa, c1IRbShort]⟩

/-- Witness for C1: at the default threshold the length-1000 IRa is
accepted together with a length-1001 IRb, and both returned IRs satisfy
the bound; in the variant record whose IRb candidate is 999 bases long
the candidate is discarded (the slot reverts, the clobbering junction
stage then empties the pair, and the record fails), so the under-length IR
is never returned. -/
theorem C1_accepted_ir_length_ge_min_witness :
    identify_inverted_repeats c1Rec 1000 = .ok (some c1IRa, some c1IRb) ∧
    (1000 : Int) ≤ extractLen c1Rec.seq_len c1IRa ∧
    (1000 : Int) ≤ extractLen c1Rec.seq_len c1IRb ∧
    extractLen c1Rec.seq_len c1IRa = 1000 ∧
    SeqFeature.length c1IRbShort = 999 ∧
    identify_inverted_repeats c1RecShort 1000 = .error .noSingleCopyFeatures := by
  have h : identify_inverted_repeats c1Rec 1000 = .ok (some c1IRa, some c1IRb) := by decide
  have hc := C1_accepted_ir_length_ge_min c1Rec 1000 (some c1IRa) (some c1IRb) h
  exact ⟨h, hc.1 c1IRa rfl, hc.2 c1IRb rfl, by decide, by decide, by decide⟩

/-! ## C9 -/

lemma complementBase_involutive (c : Char) : complementBase (complementBase c) = c := by
  by_cases h1 : c = 'A'
  · subst h1; decide
  by_cases h2 : c = 'T'
  · subst h2; decide
  by_cases h3 : c = 'C'
  · subst h3; decide
  by_cases h4 : c = 'G'
  · subst h4; decide
  simp [complementBase, h1, h2, h3, h4]

lemma reverse_complement_involutive (s : List Char) :
    reverse_complement (reverse_complement s) = s := by
  unfold reverse_complement
  rw [List.map_reverse, List.map_map]
  have hcomp : complementBase ∘ complementBase = id := funext complementBase_involutive
  rw [hcomp, List.map_id, List.reverse_reverse]

lemma reverse_complement_length (s : List Char) :
    (reverse_complement s).length = s.length := by
  simp [reverse_complement]

lemma lcs_le_left (x y : List Char) : lcs x y ≤ x.length := by
  induction x, y using lcs.induct with
  | case1 y => simp [lcs]
  | case2 a x => simp [lcs]
  | case3 x b y ih =>
    rw [lcs, if_pos rfl]
    simpa using ih
  | case4 a x b y hab ih1 ih2 =>
    rw [lcs, if_neg hab]
    have h2 : lcs x (b :: y) ≤ x.length := ih2
    simp only [List.length_cons]
    exact max_le (by simpa using ih1) (by omega)

lemma lcs_self (x : List Char) : lcs x x = x.length := by
  induction x with
  | nil => simp [lcs]
  | cons a t ih => rw [lcs, if_pos rfl, ih, List.length_cons]

lemma lcs_full_sublist (x y : List Char) (h : lcs x y = x.length) : x.Sublist y := by
  induction x, y using lcs.induct with
  | case1 y => exact List.nil_sublist y
  | case2 a x =>
    rw [lcs] at h
    simp at h
  | case3 x b y ih =>
    rw [lcs, if_pos rfl] at h
    exact List.Sublist.cons₂ b (ih (by simpa using h))
  | case4 a x b y hab ih1 ih2 =>
    rw [lcs, if_neg hab] at h
    rcases max_choice (lcs (a :: x) y) (lcs x (b :: y)) with hm | hm
    · exact List.Sublist.cons b (ih1 (hm.symm.trans h))
    · have hle := lcs_le_left x (b :: y)
      rw [hm.symm.trans h] at hle
      simp at hle

lemma lcs_lt_of_ne (x y : List Char) (hlen : x.length = y.length) (hne : x ≠ y) :
    lcs x y < x.length := by
  rcases Nat.lt_or_ge (lcs x y) x.length with h | h
  · exact h
  · have heq : lcs x y = x.length := le_antisymm (lcs_le_left x y) h
    have hsub := lcs_full_sublist x y heq
    exact absurd (hsub.eq_of_length hlen) hne

lemma fuzz_ratio_self (x : List Char) (hx : x ≠ []) : fuzz_ratio x x = 100 := by
  unfold fuzz_ratio
  rw [lcs_self]
  have hpos : 0 < x.length := List.length_pos.mpr hx
  have h2 : x.length + x.length = 2 * x.length := by ring
  rw [h2]
  exact Nat.mul_div_cancel 100 (show 0 < 2 * x.length by omega)

lemma fuzz_ratio_lt (x y : List Char) (hx : x ≠ []) (hlen : x.length = y.length)
    (hne : x ≠ y) : fuzz_ratio x y < 100 := by
  unfold fuzz_ratio
  have hpos : 0 < x.length := List.length_pos.mpr hx
  have hl : lcs x y < x.length := lcs_lt_of_ne x y hlen hne
  rw [← hlen]
  have h2 : x.length + x.length = 2 * x.length := by ring
  have h3 : 100 * (2 * lcs x y) = 2 * (100 * lcs x y) := by ring
  rw [h2, h3, Nat.mul_div_mul_left _ _ (by omega : 0 < 2)]
  rw [Nat.div_lt_iff_lt_mul hpos]
  omega

/-- C9: the orientation reconciler sets the reverse-complement flag for IRb
if and only if the similarity of IRa to the reverse complement of IRb is
strictly greater than the similarity of IRa to IRb as given; equal scores
leave the flag unset; and for a non-palindromic nonempty IRa, supplying IRb
pre-reverse-complemented relative to IRa makes the flag set. -/
theorem C9_rev_comp_flag_iff_strictly_greater (ira irb : List Char) :
    (reconcile_rev_comp ira irb = true ↔
      fuzz_ratio ira irb < fuzz_ratio ira (reverse_complement irb)) ∧
    (fuzz_ratio ira irb = fuzz_ratio ira (reverse_complement irb) →
      reconcile_rev_comp ira irb = false) ∧
    (ira ≠ [] → irb = reverse_complement ira → ira ≠ reverse_complement ira →
      reconcile_rev_comp ira irb = true) := by
  refine ⟨?_, ?_, ?_⟩
  · simp [reconcile_rev_comp]
  · intro h
    simp [reconcile_rev_comp, h]
  · intro hne hirb hpal
    subst hirb
    unfold reconcile_rev_comp
    rw [reverse_complement_involutive, fuzz_ratio_self _ hne]
    simp only [decide_eq_true_eq]
    exact fuzz_ratio_lt _ _ hne (reverse_complement_length ira).symm hpal

/-- Witness for C9: the non-palindromic sequence "AAC" paired with its
reverse complement "GTT" makes the reconciler flag reversal. -/
theorem C9_rev_comp_flag_iff_strictly_greater_witness :
    "AAC".data ≠ reverse_complement "AAC".data ∧
    reconcile_rev_comp "AAC".data (reverse_complement "AAC".data) = true :=
  ⟨by decide,
    (C9_rev_comp_flag_iff_strictly_greater "AAC".data (reverse_complement "AAC".data)).2.2
      (by decide) rfl (by decide)⟩
